import Mathlib

/-!
# ControlBrowserByGesture: the example accumulator and its collaborators

A shallow embedding of `src/index.js`.

* `Engine` is the numeric buffer runtime the page is written against (the
  `tf` object): a table of tensors addressed by handle, each with a shape, its
  values in row-major order, a `disposed` flag and a `kept` flag, together with
  the stack of open `tf.tidy` scopes.
* `ControllerDataset` is the class of the same name: `numClasses` and the two
  optional handles `xs` and `ys`.
* `addExample`, `train`, `cropImage` and the normalisation of `capture` follow
  the source statement by statement.
-/

namespace ControlBrowserByGesture

/-! ## The numeric buffer runtime -/

/-- Failures that abort a call: the runtime rejecting a concatenation, the
runtime refusing to read a released buffer, and a method call on a missing
object. -/
inductive TfError where
  | shapeMismatch
  | disposedTensor
  | typeError
  deriving DecidableEq, Repr

/-- One buffer of the runtime. -/
structure Tensor where
  shape : List Nat
  data : List ℚ
  disposed : Bool
  kept : Bool
  deriving DecidableEq, Repr

/-- The runtime: every tensor ever created (a handle is an index into
`tensors`) and the stack of open tidy scopes, innermost first, each holding the
handles it tracks. -/
structure Engine where
  tensors : List Tensor
  scopes : List (List Nat)
  deriving DecidableEq, Repr

/-- Result of a runtime operation: a value and the next runtime state, or an
error and the runtime state at the point of the throw. -/
inductive Res (α : Type) where
  | ok (val : α) (tf : Engine)
  | throw (err : TfError) (tf : Engine)

namespace Engine

/-- Modelled from the spec: scope tracking of the runtime (library code, not in
the repository). A tensor is recorded in the innermost open scope, if any. -/
def track (tf : Engine) (id : Nat) : Engine :=
  match tf.scopes with
  | [] => tf
  | sc :: rest => { tf with scopes := (id :: sc) :: rest }

/-- Modelled from the spec: creation of a buffer by the runtime (library code,
not in the repository). The new tensor is live, not kept, gets the next free
handle and is tracked by the innermost scope. -/
def register (tf : Engine) (shape : List Nat) (data : List ℚ) : Nat × Engine :=
  (tf.tensors.length,
    track { tf with tensors := tf.tensors ++ [⟨shape, data, false, false⟩] }
      tf.tensors.length)

/-- Update of the bookkeeping flags of the tensor behind a handle. -/
def modify (tf : Engine) (id : Nat) (f : Tensor → Tensor) : Engine :=
  match tf.tensors[id]? with
  | none => tf
  | some t => { tf with tensors := tf.tensors.set id (f t) }

/-- Modelled from the spec: `dispose()` of the runtime (library code, not in
the repository): releases the buffer; releasing twice is harmless. -/
def dispose (tf : Engine) (id : Nat) : Engine :=
  tf.modify id (fun t => { t with disposed := true })

/-- Modelled from the spec: `tf.keep` of the runtime (library code, not in the
repository): marks the buffer so that no tidy scope releases it. -/
def keep (tf : Engine) (id : Nat) : Engine :=
  tf.modify id (fun t => { t with kept := true })

/-- Whether the handle names a tensor marked kept. -/
def isKept (tf : Engine) (id : Nat) : Bool :=
  match tf.tensors[id]? with
  | some t => t.kept
  | none => false

/-- Whether the handle names a tensor that has not been released. -/
def isLive (tf : Engine) (id : Nat) : Bool :=
  match tf.tensors[id]? with
  | some t => !t.disposed
  | none => false

/-- Reading a tensor for an operation: a released buffer cannot be read. -/
def read (tf : Engine) (id : Nat) : Res Tensor :=
  match tf.tensors[id]? with
  | none => .throw .typeError tf
  | some t => if t.disposed then .throw .disposedTensor tf else .ok t tf

/-- Modelled from the spec: opening of a `tf.tidy` scope (library code, not in
the repository). -/
def startScope (tf : Engine) : Engine :=
  { tf with scopes := [] :: tf.scopes }

/-- Modelled from the spec: closing of a `tf.tidy` scope (library code, not in
the repository). Every tensor tracked by the scope is released unless it is
kept or is the value the scope returns; the returned tensor, unless kept, is
handed to the enclosing scope. -/
def endScope (tf : Engine) (result : Option Nat) : Engine :=
  match tf.scopes with
  | [] => tf
  | sc :: rest =>
    let tf1 := sc.foldl
      (fun e id => if e.isKept id || result == some id then e else e.dispose id) tf
    let tf2 : Engine := { tf1 with scopes := rest }
    match result with
    | none => tf2
    | some r => if tf2.isKept r then tf2 else tf2.track r

/-- Modelled from the spec: `tf.tidy(f)` of the runtime (library code, not in
the repository): runs `f` in a fresh scope and closes the scope whether `f`
returns or throws. -/
def tidy (tf : Engine) (f : Engine → Res Nat) : Res Nat :=
  match f tf.startScope with
  | .ok r tf1 => .ok r (tf1.endScope (some r))
  | .throw e tf1 => .throw e (tf1.endScope none)

/-- Modelled from the spec: `tf.tensor1d(values)` (library code, not in the
repository): a rank-1 buffer holding the given numbers. -/
def tensor1d (tf : Engine) (values : List ℚ) : Res Nat :=
  .ok (tf.register [values.length] values).1 (tf.register [values.length] values).2

/-- Truncation of a number towards zero, as a conversion to a 32-bit integer
dtype does for values in range. -/
def truncate (v : ℚ) : ℚ := ((Int.tdiv v.num (v.den : Int) : Int) : ℚ)

/-- Modelled from the spec: `toInt()` (library code, not in the repository): a
new buffer of the same shape with every value truncated to an integer. -/
def toInt (tf : Engine) (a : Nat) : Res Nat :=
  match tf.read a with
  | .throw e tf1 => .throw e tf1
  | .ok t tf1 => .ok (tf1.register t.shape (t.data.map truncate)).1
      (tf1.register t.shape (t.data.map truncate)).2

/-- A one-hot row of width `depth` for the index `v`: 1 where the column equals
`v`, 0 elsewhere (all zero when `v` is no column). -/
def oneHotRow (depth : Nat) (v : ℚ) : List ℚ :=
  (List.range depth).map (fun (j : Nat) => if v = (j : ℚ) then 1 else 0)

/-- Modelled from the spec: `tf.oneHot(indices, depth)` (library code, not in
the repository): for `n` indices a buffer of shape `[n, depth]` whose rows are
the one-hot rows of the indices. -/
def oneHot (tf : Engine) (indices : Nat) (depth : Nat) : Res Nat :=
  match tf.read indices with
  | .throw e tf1 => .throw e tf1
  | .ok t tf1 =>
    .ok (tf1.register [t.data.length, depth] ((t.data.map (oneHotRow depth)).flatten)).1
      (tf1.register [t.data.length, depth] ((t.data.map (oneHotRow depth)).flatten)).2

/-- Modelled from the spec: `a.concat(b, 0)` (library code, not in the
repository): concatenation along axis 0. The receiver must be live, both shapes
must have the same rank (at least 1) and agree on every dimension but the
first, and the argument must be live; the result is a new buffer whose leading
dimension is the sum and whose rows are those of `a` followed by those of
`b`. -/
def concat (tf : Engine) (a b : Nat) : Res Nat :=
  match tf.tensors[a]?, tf.tensors[b]? with
  | some ta, some tb =>
    if ta.disposed then .throw .disposedTensor tf
    else
      match ta.shape, tb.shape with
      | na :: da, nb :: db =>
        if da = db then
          if tb.disposed then .throw .disposedTensor tf
          else .ok (tf.register ((na + nb) :: da) (ta.data ++ tb.data)).1
            (tf.register ((na + nb) :: da) (ta.data ++ tb.data)).2
        else .throw .shapeMismatch tf
      | _, _ => .throw .shapeMismatch tf
  | _, _ => .throw .typeError tf

end Engine

/-! ## `ControllerDataset` -/

/-- The class `ControllerDataset`: `numClasses` and the handles of the two
accumulated buffers, absent until the first example. -/
structure ControllerDataset where
  numClasses : Nat
  xs : Option Nat
  ys : Option Nat
  deriving DecidableEq, Repr

/-- The constructor: only `numClasses` is assigned. -/
def ControllerDataset.new (numClasses : Nat) : ControllerDataset :=
  { numClasses := numClasses, xs := none, ys := none }

/-- Outcome of a method call: the runtime and the object after the call, with
the error when the call threw. -/
inductive Outcome where
  | ok (tf : Engine) (ds : ControllerDataset)
  | throw (err : TfError) (tf : Engine) (ds : ControllerDataset)

/-- The runtime after the call, however it ended. -/
def Outcome.tf : Outcome → Engine
  | .ok tf _ => tf
  | .throw _ tf _ => tf

/-- The dataset object after the call, however it ended. -/
def Outcome.ds : Outcome → ControllerDataset
  | .ok _ ds => ds
  | .throw _ _ ds => ds

/-- Whether the call returned normally. -/
def Outcome.succeeded : Outcome → Bool
  | .ok _ _ => true
  | .throw _ _ _ => false

/-- The expression
`tf.tidy(() => tf.oneHot(tf.tensor1d([label]).toInt(), this.numClasses))`. -/
def oneHotLabel (tf : Engine) (label : ℚ) (numClasses : Nat) : Res Nat :=
  tf.tidy (fun tf0 =>
    match tf0.tensor1d [label] with
    | .throw e tf1 => .throw e tf1
    | .ok t1 tf1 =>
      match tf1.toInt t1 with
      | .throw e tf2 => .throw e tf2
      | .ok t2 tf2 => tf2.oneHot t2 numClasses)

/-- The method `ControllerDataset.addExample(example, label)`. -/
def addExample (tf : Engine) (this : ControllerDataset) (ex : Nat) (label : ℚ) :
    Outcome :=
  match oneHotLabel tf label this.numClasses with
  | .throw e tf1 => .throw e tf1 this
  | .ok y tf1 =>
    match this.xs with
    | none =>
      let tf2 := tf1.keep ex
      let this1 := { this with xs := some ex }
      let tf3 := tf2.keep y
      .ok tf3 { this1 with ys := some y }
    | some oldX =>
      match tf1.concat oldX ex with
      | .throw e tf2 => .throw e tf2 this
      | .ok newX tf2 =>
        let tf3 := tf2.keep newX
        let this1 := { this with xs := some newX }
        match this1.ys with
        | none => .throw .typeError tf3 this1
        | some oldY =>
          match tf3.concat oldY y with
          | .throw e tf4 => .throw e tf4 this1
          | .ok newY tf4 =>
            let tf5 := tf4.keep newY
            let this2 := { this1 with ys := some newY }
            let tf6 := tf5.dispose oldX
            let tf7 := tf6.dispose oldY
            let tf8 := tf7.dispose y
            .ok tf8 this2


/-- The tensors the one-hot expression appends to the runtime: the two
temporaries released by its tidy scope and the one-hot row it returns. -/
def labelTensors (label : ℚ) (nc : Nat) : List Tensor :=
  [⟨[1], [label], true, false⟩, ⟨[1], [Engine.truncate label], true, false⟩,
   ⟨[1, nc], Engine.oneHotRow nc (Engine.truncate label), false, false⟩]

/-- The runtime right after the one-hot expression of `addExample`, spelled
out: the three new tensors, the one-hot row tracked by the enclosing scope. -/
def afterLabel (tf : Engine) (label : ℚ) (nc : Nat) : Engine :=
  { tensors := tf.tensors ++ labelTensors label nc,
    scopes := match tf.scopes with
      | [] => []
      | sc :: rest => ((tf.tensors.length + 2) :: sc) :: rest }

/-- The runtime a successful call on a non-empty dataset leaves, spelled out:
the two concatenations, each kept, then the three releases. -/
def afterAppend (tf : Engine) (label : ℚ) (nc : Nat) (x y : Nat)
    (sx : List Nat) (dx : List ℚ) (sy : List Nat) (dy : List ℚ) : Engine :=
  (((((((afterLabel tf label nc).register sx dx).2.keep (tf.tensors.length + 3)).register
    sy dy).2.keep (tf.tensors.length + 4)).dispose x).dispose y).dispose (tf.tensors.length + 2)

/-- The readable value behind an optional handle: shape and row-major values
of a tensor that exists and has not been released. -/
def Engine.value (tf : Engine) (h : Option Nat) : Option (List Nat × List ℚ) :=
  match h with
  | none => none
  | some id =>
    match tf.tensors[id]? with
    | none => none
    | some t => if t.disposed then none else some (t.shape, t.data)

/-- `t.shape[0]` of the tensor behind an optional handle. -/
def Engine.leadingDim (tf : Engine) (h : Option Nat) : Option Nat :=
  match h with
  | none => none
  | some id =>
    match tf.tensors[id]? with
    | none => none
    | some t => t.shape.head?

/-- The state an accumulator is in between calls, for examples whose
dimensions after the first are `dims`: either both buffers are absent, or both
are present and live, `xs` of shape `[n, ...dims]` and `ys` of shape
`[m, numClasses]`. -/
def Accumulating (tf : Engine) (ds : ControllerDataset) (dims : List Nat) : Prop :=
  (ds.xs = none ∧ ds.ys = none) ∨
  ∃ x y tx ty n m, ds.xs = some x ∧ ds.ys = some y ∧
    tf.tensors[x]? = some tx ∧ tx.disposed = false ∧ tx.shape = n :: dims ∧
    tf.tensors[y]? = some ty ∧ ty.disposed = false ∧ ty.shape = [m, ds.numClasses]

/-! ## Sequences of calls -/

/-- One example as the page produces it: the shape and values of the buffer
the caller creates for it, and the label it is added under. -/
structure Example where
  shape : List Nat
  data : List ℚ
  label : ℚ
  deriving DecidableEq, Repr

/-- A session of the page: the runtime, the dataset object and the number of
`addExample` calls that returned normally. -/
structure Session where
  tf : Engine
  ds : ControllerDataset
  successes : Nat
  deriving DecidableEq, Repr

/-- A fresh session: a newly constructed dataset over the given runtime. -/
def Session.start (tf : Engine) (numClasses : Nat) : Session :=
  ⟨tf, ControllerDataset.new numClasses, 0⟩

/-- One call `addExample(example, label)` of the session, as in
`addExampleHandler`: the example arrives in a buffer of its own, created by the
caller for this call. A call that throws leaves whatever state it reached and
is not counted. -/
def Session.step (s : Session) (e : Example) : Session :=
  match addExample (s.tf.register e.shape e.data).2 s.ds
      (s.tf.register e.shape e.data).1 e.label with
  | .ok tf ds => ⟨tf, ds, s.successes + 1⟩
  | .throw _ tf ds => ⟨tf, ds, s.successes⟩

/-- The calls of a session, in order. -/
def Session.run (s : Session) (examples : List Example) : Session :=
  examples.foldl Session.step s

/-- Alignment of a session: `xs` and `ys` are present and
`xs.shape[0] == ys.shape[0] ==` the number of successful calls. -/
def Session.aligned (s : Session) : Prop :=
  s.ds.xs.isSome = true ∧ s.ds.ys.isSome = true ∧
    s.tf.leadingDim s.ds.xs = some s.successes ∧
    s.tf.leadingDim s.ds.ys = some s.successes

instance (s : Session) : Decidable s.aligned := by
  unfold Session.aligned; infer_instance

/-- Examples that can be concatenated with one another along axis 0: each has
rank at least 1 and `dims` as its dimensions after the first. -/
def Concatenable (dims : List Nat) (examples : List Example) : Prop :=
  ∀ e ∈ examples, e.shape ≠ [] ∧ e.shape.tail = dims

instance (dims : List Nat) (examples : List Example) :
    Decidable (Concatenable dims examples) := by
  unfold Concatenable; infer_instance

/-- Row `i` of a rank-2 buffer with rows of width `width`, from its row-major
values. -/
def rowOf (data : List ℚ) (width i : Nat) : List ℚ :=
  (data.drop (i * width)).take width

/-- The batched construction the spec compares with, features: the axis-0
concatenation of the examples taken together, as shape and row-major values. -/
def batchedFeatures (dims : List Nat) (examples : List Example) : List Nat × List ℚ :=
  ((examples.map (fun e => e.shape.headD 0)).sum :: dims,
    (examples.map (fun e => e.data)).flatten)

/-- The batched construction the spec compares with, labels: the stack of the
one-hot rows of the labels, as shape and row-major values. -/
def batchedLabels (numClasses : Nat) (examples : List Example) : List Nat × List ℚ :=
  ([examples.length, numClasses],
    (examples.map (fun e => Engine.oneHotRow numClasses (Engine.truncate e.label))).flatten)

/-- What a session has accumulated after accepting the examples `done`: both
buffers are present, live and kept, and hold the batched construction. -/
def Accumulated (nc : Nat) (dims : List Nat) (done : List Example) (s : Session) : Prop :=
  s.successes = done.length ∧ s.ds.numClasses = nc ∧
  ∃ x y, s.ds.xs = some x ∧ s.ds.ys = some y ∧
    s.tf.tensors[x]? = some ⟨(batchedFeatures dims done).1, (batchedFeatures dims done).2,
      false, true⟩ ∧
    s.tf.tensors[y]? = some ⟨(batchedLabels nc done).1, (batchedLabels nc done).2,
      false, true⟩

/-! ## The training driver -/

/-- How a call of `train` ends: one of its two errors, or the call of
`model.fit` with the two buffers, the batch size and the number of epochs. -/
inductive TrainResult where
  | emptyDataset
  | invalidBatchSize
  | fit (xs : Nat) (ys : Option Nat) (batchSize : Nat) (epochs : Nat)
  deriving DecidableEq, Repr

/-- Numerator of the double nearest to `0.05`: the literal denotes
`3602879701896397 / 2 ^ 56`. -/
def fractionNum : Nat := 3602879701896397

/-- Number of binary digits of a natural number, by repeated halving. -/
def bitLengthAux : Nat → Nat → Nat
  | 0, _ => 0
  | fuel + 1, n => if n = 0 then 0 else bitLengthAux fuel (n / 2) + 1

/-- Number of binary digits of a natural number. -/
def bitLength (n : Nat) : Nat := bitLengthAux n n

/-- Rounding of a natural number to 53 significant binary digits, to nearest
with ties to even: the rounding of a double-precision product, on the scaled
numerator. -/
def roundTo53 (p : Nat) : Nat :=
  if bitLength p ≤ 53 then p
  else
    let shift := bitLength p - 53
    let m := p / 2 ^ shift
    let r := p % 2 ^ shift
    let half := 2 ^ (shift - 1)
    if r < half then m * 2 ^ shift
    else if half < r then (m + 1) * 2 ^ shift
    else if m % 2 = 0 then m * 2 ^ shift
    else (m + 1) * 2 ^ shift

/-- The expression `Math.floor(n * 0.05)` in double precision, for a
non-negative integer `n`. -/
def floorFraction (n : Nat) : Nat :=
  roundTo53 (n * fractionNum) / 2 ^ 56

/-- The control flow of `train()`: the empty check, the batch size and its
check, and the call of `model.fit`. Building and compiling the model between
the two checks does not touch the dataset. A missing `shape[0]` makes the batch
size `NaN`, which fails the check `batchSize > 0`. -/
def train (tf : Engine) (controllerDataset : ControllerDataset) : TrainResult :=
  match controllerDataset.xs with
  | none => .emptyDataset
  | some xs =>
    match tf.leadingDim (some xs) with
    | none => .invalidBatchSize
    | some n =>
      let batchSize := floorFraction n
      if ¬ (batchSize > 0) then .invalidBatchSize
      else .fit xs controllerDataset.ys batchSize 20

/-! ## Capture: crop and normalisation -/

/-- The arguments `cropImage` passes to `img.slice`: where the window begins
and its size. -/
structure SliceRequest where
  begin : List ℚ
  size : List ℚ
  deriving DecidableEq, Repr

/-- The function `cropImage(img)`, for an image of shape `[height, width, _]`:
JavaScript division is exact on halves of integers. -/
def cropImage (height width : Nat) : SliceRequest :=
  let size : ℚ := ((min height width : Nat) : ℚ)
  let centerHeight : ℚ := (height : ℚ) / 2
  let beginHeight := centerHeight - size / 2
  let centerWidth : ℚ := (width : ℚ) / 2
  let beginWidth := centerWidth - size / 2
  { begin := [beginHeight, beginWidth, 0], size := [size, size, 3] }

/-- The value `capture` returns for a pixel value `v`:
`.div(tf.scalar(127)).sub(tf.scalar(1))`. -/
def normalize (v : ℚ) : ℚ := v / 127 - 1

/-! ## Lookup lemmas for the runtime -/

theorem getElem?_append_add {α : Type} (ts l : List α) (i : Nat) :
    (ts ++ l)[ts.length + i]? = l[i]? := by
  rw [List.getElem?_append_right (Nat.le_add_right _ _)]
  simp

theorem getElem?_append_len {α : Type} (ts l : List α) :
    (ts ++ l)[ts.length]? = l[0]? := by
  have h := getElem?_append_add ts l 0
  rwa [Nat.add_zero] at h

theorem set_append_add {α : Type} (ts l : List α) (i : Nat) (x : α) :
    (ts ++ l).set (ts.length + i) x = ts ++ l.set i x := by
  rw [List.set_append_right _ _ (Nat.le_add_right _ _)]
  simp

theorem set_append_len {α : Type} (ts l : List α) (x : α) :
    (ts ++ l).set ts.length x = ts ++ l.set 0 x := by
  have h := set_append_add ts l 0 x
  rwa [Nat.add_zero] at h

theorem lt_length_of_getElem? {α : Type} {l : List α} {i : Nat} {a : α}
    (h : l[i]? = some a) : i < l.length := by
  by_contra hc
  rw [List.getElem?_eq_none (Nat.le_of_not_lt hc)] at h
  exact Option.noConfusion h

namespace Engine

theorem track_tensors (tf : Engine) (id : Nat) : (tf.track id).tensors = tf.tensors := by
  unfold track; split <;> rfl

theorem register_fst (tf : Engine) (s : List Nat) (d : List ℚ) :
    (tf.register s d).1 = tf.tensors.length := rfl

theorem register_tensors (tf : Engine) (s : List Nat) (d : List ℚ) :
    (tf.register s d).2.tensors = tf.tensors ++ [⟨s, d, false, false⟩] := by
  simp only [register, track_tensors]

theorem modify_length (tf : Engine) (id : Nat) (f : Tensor → Tensor) :
    (tf.modify id f).tensors.length = tf.tensors.length := by
  unfold modify; split
  · rfl
  · simp only [List.length_set]

theorem modify_getElem? (tf : Engine) (id : Nat) (f : Tensor → Tensor) (j : Nat) :
    (tf.modify id f).tensors[j]? =
      if j = id then (tf.tensors[j]?).map f else tf.tensors[j]? := by
  unfold modify
  split
  · next h =>
    by_cases hj : j = id
    · subst hj; simp [h]
    · simp [hj]
  · next t h =>
    by_cases hj : j = id
    · subst hj
      simp [List.getElem?_set, h, lt_length_of_getElem? h]
    · have : ¬ id = j := fun e => hj e.symm
      simp [List.getElem?_set, hj, this]

theorem dispose_length (tf : Engine) (id : Nat) :
    (tf.dispose id).tensors.length = tf.tensors.length := modify_length _ _ _

theorem keep_length (tf : Engine) (id : Nat) :
    (tf.keep id).tensors.length = tf.tensors.length := modify_length _ _ _

theorem dispose_getElem? (tf : Engine) (id j : Nat) :
    (tf.dispose id).tensors[j]? =
      if j = id then (tf.tensors[j]?).map (fun t => { t with disposed := true })
      else tf.tensors[j]? := modify_getElem? _ _ _ _

theorem keep_getElem? (tf : Engine) (id j : Nat) :
    (tf.keep id).tensors[j]? =
      if j = id then (tf.tensors[j]?).map (fun t => { t with kept := true })
      else tf.tensors[j]? := modify_getElem? _ _ _ _

theorem read_live {tf : Engine} {id : Nat} {t : Tensor}
    (h : tf.tensors[id]? = some t) (hd : t.disposed = false) : tf.read id = .ok t tf := by
  simp only [read, h, hd]; rfl

theorem toInt_live {tf : Engine} {a : Nat} {t : Tensor}
    (h : tf.tensors[a]? = some t) (hd : t.disposed = false) :
    tf.toInt a = .ok (tf.register t.shape (t.data.map truncate)).1
      (tf.register t.shape (t.data.map truncate)).2 := by
  simp only [toInt, read_live h hd]

theorem oneHot_live {tf : Engine} {a depth : Nat} {t : Tensor}
    (h : tf.tensors[a]? = some t) (hd : t.disposed = false) :
    tf.oneHot a depth =
      .ok (tf.register [t.data.length, depth] ((t.data.map (oneHotRow depth)).flatten)).1
        (tf.register [t.data.length, depth] ((t.data.map (oneHotRow depth)).flatten)).2 := by
  simp only [oneHot, read_live h hd]

theorem isKept_of {tf : Engine} {id : Nat} {t : Tensor}
    (h : tf.tensors[id]? = some t) : tf.isKept id = t.kept := by
  simp only [isKept, h]

theorem dispose_of {tf : Engine} {id : Nat} {t : Tensor}
    (h : tf.tensors[id]? = some t) :
    tf.dispose id = { tf with tensors := tf.tensors.set id { t with disposed := true } } := by
  simp only [dispose, modify, h]

/-- Closing a scope that tracks exactly three fresh tensors, none kept, and
returns the last of them: the first two are released, the third is handed to
the enclosing scope. -/
theorem endScope_three (ts : List Tensor) (scs : List (List Nat)) (a b c : Tensor)
    (ha : a.kept = false) (hb : b.kept = false) (hc : c.kept = false) :
    endScope ⟨ts ++ [a, b, c], [ts.length + 2, ts.length + 1, ts.length] :: scs⟩
        (some (ts.length + 2)) =
      ⟨ts ++ [{ a with disposed := true }, { b with disposed := true }, c],
        match scs with
        | [] => []
        | sc :: rest => ((ts.length + 2) :: sc) :: rest⟩ := by
  have e1 : (ts ++ [a, b, c])[ts.length + 1]? = some b := by
    rw [getElem?_append_add]; rfl
  have e0 : (ts ++ [a, { b with disposed := true }, c])[ts.length]? = some a := by
    rw [getElem?_append_len]; rfl
  have e2 : (ts ++ [{ a with disposed := true }, { b with disposed := true }, c])[ts.length + 2]?
      = some c := by
    rw [getElem?_append_add]; rfl
  have s1 : dispose ⟨ts ++ [a, b, c], [ts.length + 2, ts.length + 1, ts.length] :: scs⟩
      (ts.length + 1) =
      ⟨ts ++ [a, { b with disposed := true }, c],
        [ts.length + 2, ts.length + 1, ts.length] :: scs⟩ := by
    rw [dispose_of e1]; simp only [set_append_add]; rfl
  have s0 : dispose ⟨ts ++ [a, { b with disposed := true }, c],
      [ts.length + 2, ts.length + 1, ts.length] :: scs⟩ ts.length =
      ⟨ts ++ [{ a with disposed := true }, { b with disposed := true }, c],
        [ts.length + 2, ts.length + 1, ts.length] :: scs⟩ := by
    rw [dispose_of e0]; simp only [set_append_len]; rfl
  have k1 : isKept ⟨ts ++ [a, b, c], [ts.length + 2, ts.length + 1, ts.length] :: scs⟩
      (ts.length + 1) = false := by rw [isKept_of e1, hb]
  have k0 : isKept ⟨ts ++ [a, { b with disposed := true }, c],
      [ts.length + 2, ts.length + 1, ts.length] :: scs⟩ ts.length = false := by
    rw [isKept_of e0, ha]
  have k2 : isKept ⟨ts ++ [{ a with disposed := true }, { b with disposed := true }, c], scs⟩
      (ts.length + 2) = false := by rw [isKept_of e2, hc]
  have n1 : (some (ts.length + 2) == some (ts.length + 1)) = false := by simp
  have n0 : (some (ts.length + 2) == some ts.length) = false := by simp
  simp only [endScope, List.foldl_cons, List.foldl_nil, beq_self_eq_true, Bool.or_true,
    if_true, k1, n1, Bool.or_false, Bool.false_eq_true, if_false, s1, k0, n0, s0, k2, track]
  cases scs <;> rfl

/-- A successful concatenation, spelled out. -/
theorem concat_ok {tf : Engine} {a b : Nat} {ta tb : Tensor} {na nb : Nat} {dims : List Nat}
    (ha : tf.tensors[a]? = some ta) (hb : tf.tensors[b]? = some tb)
    (hal : ta.disposed = false) (hbl : tb.disposed = false)
    (has : ta.shape = na :: dims) (hbs : tb.shape = nb :: dims) :
    tf.concat a b = .ok tf.tensors.length
      (tf.register ((na + nb) :: dims) (ta.data ++ tb.data)).2 := by
  simp only [concat, ha, hb, hal, has, hbs, hbl, register_fst]
  simp

/-- A concatenation never changes the runtime when it throws. -/
theorem concat_throw {tf tf1 : Engine} {a b : Nat} {e : TfError}
    (h : tf.concat a b = .throw e tf1) : tf1 = tf := by
  unfold concat at h
  split at h
  · split at h
    · injection h with _ h2; exact h2.symm
    · split at h
      · split at h
        · split at h
          · injection h with _ h2; exact h2.symm
          · exact Res.noConfusion h
        · injection h with _ h2; exact h2.symm
      · injection h with _ h2; exact h2.symm
  · injection h with _ h2; exact h2.symm

end Engine

theorem oneHotLabel_eq (tf : Engine) (label : ℚ) (nc : Nat) :
    oneHotLabel tf label nc = .ok (tf.tensors.length + 2)
      (afterLabel tf label nc) := by
  obtain ⟨ts, scs⟩ := tf
  unfold afterLabel
  have h1 : (ts ++ [(⟨[1], [label], false, false⟩ : Tensor)])[ts.length]? =
      some ⟨[1], [label], false, false⟩ := by simp
  have h2 : (ts ++ [(⟨[1], [label], false, false⟩ : Tensor)] ++
      [(⟨[1], [Engine.truncate label], false, false⟩ : Tensor)])[ts.length + 1]? =
      some ⟨[1], [Engine.truncate label], false, false⟩ := by
    rw [List.append_assoc, getElem?_append_add]; rfl
  unfold oneHotLabel Engine.tidy
  simp only [Engine.tensor1d, Engine.startScope, Engine.register, Engine.track]
  rw [Engine.toInt_live h1 rfl]
  simp only [Engine.register, Engine.track, List.length_append, List.length_singleton]
  rw [Engine.oneHot_live h2 rfl]
  simp only [Engine.register, Engine.track, List.length_append, List.length_singleton,
    List.append_assoc, List.singleton_append, List.map_cons, List.map_nil, List.flatten_cons,
    List.flatten_nil, List.append_nil, List.length_cons, List.length_nil, Nat.zero_add]
  exact congrArg (Res.ok (ts.length + 2))
    (Engine.endScope_three ts scs ⟨[1], [label], false, false⟩
      ⟨[1], [Engine.truncate label], false, false⟩
      ⟨[1, nc], Engine.oneHotRow nc (Engine.truncate label), false, false⟩ rfl rfl rfl)

/-! ## What one call of `addExample` does -/

theorem afterLabel_length (tf : Engine) (label : ℚ) (nc : Nat) :
    (afterLabel tf label nc).tensors.length = tf.tensors.length + 3 := by
  simp [afterLabel, labelTensors]

theorem afterLabel_old (tf : Engine) (label : ℚ) (nc : Nat) {j : Nat}
    (hj : j < tf.tensors.length) :
    (afterLabel tf label nc).tensors[j]? = tf.tensors[j]? := by
  simp only [afterLabel]
  exact List.getElem?_append_left hj

theorem afterLabel_new (tf : Engine) (label : ℚ) (nc : Nat) (i : Nat) :
    (afterLabel tf label nc).tensors[tf.tensors.length + i]? = (labelTensors label nc)[i]? := by
  simp only [afterLabel]
  exact getElem?_append_add _ _ _

/-- A call on an empty dataset: it returns, `xs` is the example's handle, `ys`
the handle of the fresh one-hot row, and the runtime is the one after the
one-hot expression with both marked kept. -/
theorem addExample_first (tf : Engine) (ds : ControllerDataset) (ex : Nat) (label : ℚ)
    (hx : ds.xs = none) :
    addExample tf ds ex label =
      .ok (((afterLabel tf label ds.numClasses).keep ex).keep (tf.tensors.length + 2))
        { numClasses := ds.numClasses, xs := some ex, ys := some (tf.tensors.length + 2) } := by
  simp only [addExample, oneHotLabel_eq, hx]

/-- A call on a non-empty dataset whose first concatenation throws: the call
throws, the dataset object is untouched and the runtime is the one after the
one-hot expression. -/
theorem addExample_throw_xs (tf : Engine) (ds : ControllerDataset) (ex : Nat) (label : ℚ)
    {x : Nat} {e : TfError} {tf2 : Engine} (hx : ds.xs = some x)
    (hc : (afterLabel tf label ds.numClasses).concat x ex = .throw e tf2) :
    addExample tf ds ex label = .throw e (afterLabel tf label ds.numClasses) ds := by
  have h2 := Engine.concat_throw hc
  subst h2
  simp only [addExample, oneHotLabel_eq, hx, hc]

theorem addExample_append (tf : Engine) (ds : ControllerDataset) (ex : Nat) (label : ℚ)
    {x y n k m : Nat} {dims : List Nat} {tx ty te : Tensor}
    (hx : ds.xs = some x) (hy : ds.ys = some y)
    (htx : tf.tensors[x]? = some tx) (hxl : tx.disposed = false) (hxs : tx.shape = n :: dims)
    (hte : tf.tensors[ex]? = some te) (hel : te.disposed = false) (hes : te.shape = k :: dims)
    (hty : tf.tensors[y]? = some ty) (hyl : ty.disposed = false)
    (hys : ty.shape = [m, ds.numClasses]) :
    addExample tf ds ex label =
      .ok (afterAppend tf label ds.numClasses x y ((n + k) :: dims) (tx.data ++ te.data)
          [m + 1, ds.numClasses]
          (ty.data ++ Engine.oneHotRow ds.numClasses (Engine.truncate label)))
        { numClasses := ds.numClasses, xs := some (tf.tensors.length + 3),
          ys := some (tf.tensors.length + 4) } := by
  have hxL := lt_length_of_getElem? htx
  have heL := lt_length_of_getElem? hte
  have hyL := lt_length_of_getElem? hty
  have c1 := @Engine.concat_ok (afterLabel tf label ds.numClasses) x ex tx te n k dims
    ((afterLabel_old tf label ds.numClasses hxL).trans htx)
    ((afterLabel_old tf label ds.numClasses heL).trans hte) hxl hel hxs hes
  rw [afterLabel_length] at c1
  have ly : (((afterLabel tf label ds.numClasses).register ((n + k) :: dims)
      (tx.data ++ te.data)).2.keep (tf.tensors.length + 3)).tensors[y]? = some ty := by
    rw [Engine.keep_getElem?, if_neg (by omega), Engine.register_tensors,
      List.getElem?_append_left (by rw [afterLabel_length]; omega), afterLabel_old _ _ _ hyL, hty]
  have lr : (((afterLabel tf label ds.numClasses).register ((n + k) :: dims)
      (tx.data ++ te.data)).2.keep (tf.tensors.length + 3)).tensors[tf.tensors.length + 2]? =
      some ⟨[1, ds.numClasses], Engine.oneHotRow ds.numClasses (Engine.truncate label),
        false, false⟩ := by
    rw [Engine.keep_getElem?, if_neg (by omega), Engine.register_tensors,
      List.getElem?_append_left (by rw [afterLabel_length]; omega), afterLabel_new]
    rfl
  have c2 := Engine.concat_ok ly lr hyl rfl hys rfl
  rw [Engine.keep_length, Engine.register_tensors, List.length_append, afterLabel_length] at c2
  simp only [addExample, oneHotLabel_eq, hx, hy, c1, c2, afterAppend, List.length_singleton]

/-- Lookup in the runtime after a successful append, at any handle. -/
theorem afterAppend_getElem? (tf : Engine) (label : ℚ) (nc x y : Nat)
    (sx : List Nat) (dx : List ℚ) (sy : List Nat) (dy : List ℚ)
    (hx : x < tf.tensors.length) (hy : y < tf.tensors.length) (j : Nat) :
    (afterAppend tf label nc x y sx dx sy dy).tensors[j]? =
      if j < tf.tensors.length then
        (tf.tensors[j]?).map (fun t => if j = x ∨ j = y then { t with disposed := true } else t)
      else if j = tf.tensors.length then some ⟨[1], [label], true, false⟩
      else if j = tf.tensors.length + 1 then some ⟨[1], [Engine.truncate label], true, false⟩
      else if j = tf.tensors.length + 2 then
        some ⟨[1, nc], Engine.oneHotRow nc (Engine.truncate label), true, false⟩
      else if j = tf.tensors.length + 3 then some ⟨sx, dx, false, true⟩
      else if j = tf.tensors.length + 4 then some ⟨sy, dy, false, true⟩
      else none := by
  have hreg1 : ∀ i : Nat, ((afterLabel tf label nc).register sx dx).2.tensors[i]? =
      (tf.tensors ++ (labelTensors label nc ++ [(⟨sx, dx, false, false⟩ : Tensor)]))[i]? := by
    intro i
    rw [Engine.register_tensors]
    simp only [afterLabel, List.append_assoc]
  have hreg2 : ∀ i : Nat, ((((afterLabel tf label nc).register sx dx).2.keep
      (tf.tensors.length + 3)).register sy dy).2.tensors[i]? =
      ((((afterLabel tf label nc).register sx dx).2.keep (tf.tensors.length + 3)).tensors ++
        [(⟨sy, dy, false, false⟩ : Tensor)])[i]? := by
    intro i
    rw [Engine.register_tensors]
  have hlen : (((afterLabel tf label nc).register sx dx).2.keep
      (tf.tensors.length + 3)).tensors.length = tf.tensors.length + 4 := by
    simp only [Engine.keep_length, Engine.register_tensors, List.length_append,
      List.length_singleton, afterLabel_length]
  simp only [afterAppend, Engine.dispose_getElem?, Engine.keep_getElem?, hreg2]
  by_cases h0 : j < tf.tensors.length
  · have hne2 : ¬ j = tf.tensors.length + 2 := by omega
    have hne3 : ¬ j = tf.tensors.length + 3 := by omega
    have hne4 : ¬ j = tf.tensors.length + 4 := by omega
    rw [List.getElem?_append_left (by rw [hlen]; omega), Engine.keep_getElem?, hreg1,
      List.getElem?_append_left h0]
    simp only [hne2, hne3, hne4, if_false, h0, if_true]
    generalize tf.tensors[j]? = o
    by_cases h1 : j = y
    · subst h1
      by_cases h2 : j = x
      · subst h2; cases o <;> simp
      · cases o <;> simp [h2]
    · by_cases h2 : j = x
      · subst h2; cases o <;> simp [h1]
      · cases o <;> simp [h1, h2]
  · obtain ⟨i, rfl⟩ : ∃ i, j = tf.tensors.length + i := ⟨j - tf.tensors.length, by omega⟩
    have hnx : ¬ tf.tensors.length + i = x := by omega
    have hny : ¬ tf.tensors.length + i = y := by omega
    simp only [h0, hnx, hny, if_false]
    by_cases h4 : i = 4
    · subst h4
      have e : ((((afterLabel tf label nc).register sx dx).2.keep
          (tf.tensors.length + 3)).tensors ++
          [(⟨sy, dy, false, false⟩ : Tensor)])[tf.tensors.length + 4]? =
          some ⟨sy, dy, false, false⟩ := by
        rw [← hlen, getElem?_append_len]; rfl
      rw [e]
      simp
    · by_cases hlt : i < 4
      · rw [List.getElem?_append_left (by rw [hlen]; omega), Engine.keep_getElem?, hreg1,
          getElem?_append_add]
        interval_cases i <;> simp [labelTensors]
      · rw [List.getElem?_eq_none (by
          rw [List.length_append, hlen, List.length_singleton]; omega)]
        have e0 : ¬ tf.tensors.length + i = tf.tensors.length := by omega
        have e1 : ¬ tf.tensors.length + i = tf.tensors.length + 1 := by omega
        have e2 : ¬ tf.tensors.length + i = tf.tensors.length + 2 := by omega
        have e3 : ¬ tf.tensors.length + i = tf.tensors.length + 3 := by omega
        have e4 : ¬ tf.tensors.length + i = tf.tensors.length + 4 := by omega
        simp only [e0, e1, e2, e3, e4, if_false]

/-- Lookup in the runtime after a call on an empty dataset, at any handle. -/
theorem afterFirst_getElem? (tf : Engine) (label : ℚ) (nc ex : Nat)
    (hex : ex < tf.tensors.length) (j : Nat) :
    (((afterLabel tf label nc).keep ex).keep (tf.tensors.length + 2)).tensors[j]? =
      if j < tf.tensors.length then
        (tf.tensors[j]?).map (fun t => if j = ex then { t with kept := true } else t)
      else if j = tf.tensors.length then some ⟨[1], [label], true, false⟩
      else if j = tf.tensors.length + 1 then some ⟨[1], [Engine.truncate label], true, false⟩
      else if j = tf.tensors.length + 2 then
        some ⟨[1, nc], Engine.oneHotRow nc (Engine.truncate label), false, true⟩
      else none := by
  simp only [Engine.keep_getElem?]
  by_cases h0 : j < tf.tensors.length
  · have hne2 : ¬ j = tf.tensors.length + 2 := by omega
    rw [afterLabel_old _ _ _ h0]
    simp only [hne2, if_false, h0, if_true]
    generalize tf.tensors[j]? = o
    by_cases h2 : j = ex
    · subst h2; cases o <;> simp
    · cases o <;> simp [h2]
  · obtain ⟨i, rfl⟩ : ∃ i, j = tf.tensors.length + i := ⟨j - tf.tensors.length, by omega⟩
    have hnx : ¬ tf.tensors.length + i = ex := by omega
    rw [afterLabel_new]
    simp only [h0, hnx, if_false]
    by_cases hlt : i < 3
    · interval_cases i <;> simp [labelTensors]
    · rw [List.getElem?_eq_none (by simp [labelTensors]; omega)]
      have e0 : ¬ tf.tensors.length + i = tf.tensors.length := by omega
      have e1 : ¬ tf.tensors.length + i = tf.tensors.length + 1 := by omega
      have e2 : ¬ tf.tensors.length + i = tf.tensors.length + 2 := by omega
      simp [e0, e1, e2]

/-! ## Sequences of calls on concatenable examples -/

theorem shape_of_concatenable {dims : List Nat} {e : Example}
    (h : e.shape ≠ [] ∧ e.shape.tail = dims) : e.shape = e.shape.headD 0 :: dims := by
  obtain ⟨h1, h2⟩ := h
  cases hs : e.shape with
  | nil => exact absurd hs h1
  | cons a l => rw [hs] at h2; simp at h2; simp [h2]

/-- After the first call of a session. -/
theorem step_first (tf : Engine) (nc : Nat) (e : Example) :
    (Session.start tf nc).step e =
      ⟨(((afterLabel (tf.register e.shape e.data).2 e.label nc).keep tf.tensors.length).keep
          ((tf.register e.shape e.data).2.tensors.length + 2)),
        { numClasses := nc, xs := some tf.tensors.length,
          ys := some ((tf.register e.shape e.data).2.tensors.length + 2) }, 1⟩ := by
  simp only [Session.step, Session.start]
  rw [addExample_first _ _ _ _ rfl]
  rfl

theorem accumulated_first (tf : Engine) (nc : Nat) (dims : List Nat) (e : Example)
    (he : e.shape ≠ [] ∧ e.shape.tail = dims) :
    Accumulated nc dims [e] ((Session.start tf nc).step e) := by
  rw [step_first]
  refine ⟨rfl, rfl, _, _, rfl, rfl, ?_, ?_⟩
  · have hlen : tf.tensors.length < (tf.register e.shape e.data).2.tensors.length := by
      rw [Engine.register_tensors]; simp
    rw [afterFirst_getElem? _ _ _ _ hlen, if_pos hlen, Engine.register_tensors,
      getElem?_append_len]
    have hsh := shape_of_concatenable he
    simp only [batchedFeatures, List.map_cons, List.map_nil, List.sum_cons, List.sum_nil,
      Nat.add_zero, List.flatten_cons, List.flatten_nil, List.append_nil, ← hsh]
    simp
  · rw [afterFirst_getElem? _ _ _ _ (by rw [Engine.register_tensors]; simp)]
    simp [batchedLabels]

theorem accumulated_step (nc : Nat) (dims : List Nat) (done : List Example) (s : Session)
    (e : Example) (h : Accumulated nc dims done s)
    (he : e.shape ≠ [] ∧ e.shape.tail = dims) :
    Accumulated nc dims (done ++ [e]) (s.step e) := by
  obtain ⟨hs, hn, x, y, hx, hy, htx, hty⟩ := h
  have hxL := lt_length_of_getElem? htx
  have hyL := lt_length_of_getElem? hty
  have hreg : (s.tf.register e.shape e.data).2.tensors =
      s.tf.tensors ++ [⟨e.shape, e.data, false, false⟩] := Engine.register_tensors _ _ _
  have hlen : (s.tf.register e.shape e.data).2.tensors.length = s.tf.tensors.length + 1 := by
    rw [hreg]; simp
  have htx1 : (s.tf.register e.shape e.data).2.tensors[x]? = s.tf.tensors[x]? := by
    rw [hreg, List.getElem?_append_left hxL]
  have hty1 : (s.tf.register e.shape e.data).2.tensors[y]? = s.tf.tensors[y]? := by
    rw [hreg, List.getElem?_append_left hyL]
  rw [htx] at htx1
  rw [hty] at hty1
  have hte1 : (s.tf.register e.shape e.data).2.tensors[s.tf.tensors.length]? =
      some ⟨e.shape, e.data, false, false⟩ := by
    rw [hreg, getElem?_append_len]; rfl
  have hys : (batchedLabels nc done).1 = [done.length, s.ds.numClasses] := by
    rw [hn]; rfl
  have hadd := addExample_append (s.tf.register e.shape e.data).2 s.ds s.tf.tensors.length
    e.label hx hy htx1 rfl rfl hte1 rfl (shape_of_concatenable he) hty1 rfl hys
  simp only [Session.step, Engine.register_fst, hadd]
  refine ⟨by simp [hs], hn, _, _, rfl, rfl, ?_, ?_⟩
  · rw [afterAppend_getElem? _ _ _ _ _ _ _ _ _ (by omega) (by omega)]
    simp [batchedFeatures]
  · rw [afterAppend_getElem? _ _ _ _ _ _ _ _ _ (by omega) (by omega)]
    simp [batchedLabels, hn]

theorem accumulated_run (tf : Engine) (nc : Nat) (dims : List Nat) (examples : List Example)
    (hne : examples ≠ []) (hc : Concatenable dims examples) :
    Accumulated nc dims examples ((Session.start tf nc).run examples) := by
  induction examples using List.reverseRecOn with
  | nil => exact absurd rfl hne
  | append_singleton init e ih =>
    have he : e.shape ≠ [] ∧ e.shape.tail = dims := hc e (by simp)
    have hrun : (Session.start tf nc).run (init ++ [e]) =
        ((Session.start tf nc).run init).step e := by
      simp [Session.run, List.foldl_append]
    rw [hrun]
    by_cases hi : init = []
    · subst hi
      exact accumulated_first tf nc dims e he
    · exact accumulated_step nc dims init _ e
        (ih hi (fun a ha => hc a (by simp [ha]))) he

/-! ## One-hot rows -/

theorem truncate_natCast (l : Nat) : Engine.truncate (l : ℚ) = (l : ℚ) := by
  simp [Engine.truncate, Int.tdiv_one]

theorem oneHotRow_length (nc : Nat) (v : ℚ) : (Engine.oneHotRow nc v).length = nc := by
  simp [Engine.oneHotRow]

theorem oneHotRow_getElem? (nc : Nat) (v : ℚ) (j : Nat) (hj : j < nc) :
    (Engine.oneHotRow nc v)[j]? = some (if v = (j : ℚ) then 1 else 0) := by
  simp [Engine.oneHotRow, List.getElem?_map, List.getElem?_range hj]

theorem oneHotRow_count (nc l : Nat) (hl : l < nc) :
    (Engine.oneHotRow nc (l : ℚ)).count 1 = 1 := by
  have h : (Engine.oneHotRow nc (l : ℚ)).count 1 = (List.range nc).count l := by
    simp only [Engine.oneHotRow, List.count, List.countP_map]
    apply List.countP_congr
    intro j _
    by_cases hjl : l = j
    · subst hjl; simp
    · have : ¬ (l : ℚ) = (j : ℚ) := fun e => hjl (by exact_mod_cast e)
      have hjl2 : ¬ j = l := fun e => hjl e.symm
      simp [this, hjl2, hjl]
  rw [h]
  exact List.count_eq_one_of_mem (List.nodup_range nc) (List.mem_range.2 hl)

theorem rowOf_flatten (rows : List (List ℚ)) (w : Nat) (h : ∀ r ∈ rows, r.length = w)
    (i : Nat) (hi : i < rows.length) : rowOf rows.flatten w i = rows[i] := by
  induction rows generalizing i with
  | nil => exact absurd hi (Nat.not_lt_zero _)
  | cons r rs ih =>
    have hr : r.length = w := h r (by simp)
    cases i with
    | zero =>
      simp only [rowOf, Nat.zero_mul, List.drop_zero, List.flatten_cons, List.getElem_cons_zero]
      rw [← hr, List.take_left]
    | succ i =>
      have e : (i + 1) * w = r.length + i * w := by rw [hr]; ring
      have hi2 : i < rs.length := by simpa using hi
      have := ih (fun r hr => h r (by simp [hr])) i hi2
      simp only [rowOf, List.flatten_cons, e, List.drop_append, List.getElem_cons_succ]
      exact this

/-! ## Values of the accumulated buffers -/

theorem value_of_accumulated {nc : Nat} {dims : List Nat} {done : List Example} {s : Session}
    (h : Accumulated nc dims done s) :
    s.tf.value s.ds.xs = some (batchedFeatures dims done) ∧
    s.tf.value s.ds.ys = some (batchedLabels nc done) := by
  obtain ⟨_, _, x, y, hx, hy, htx, hty⟩ := h
  simp [Engine.value, hx, hy, htx, hty]

/-! ## Kept tensors survive the closing of a scope -/

namespace Engine

theorem endScope_kept (tf : Engine) (result : Option Nat) (id : Nat) (t : Tensor)
    (h : tf.tensors[id]? = some t) (hk : t.kept = true) :
    (tf.endScope result).tensors[id]? = some t := by
  have hfold : ∀ (sc : List Nat) (e : Engine), e.tensors[id]? = some t →
      (sc.foldl (fun e i => if e.isKept i || result == some i then e else e.dispose i)
        e).tensors[id]? = some t := by
    intro sc
    induction sc with
    | nil => intro e he; exact he
    | cons a sc ih =>
      intro e he
      simp only [List.foldl_cons]
      apply ih
      split
      · exact he
      · next hc =>
        rw [dispose_getElem?]
        have hne : ¬ id = a := by
          intro e1
          subst e1
          apply hc
          simp [isKept, he, hk]
        rw [if_neg hne]
        exact he
  unfold endScope
  split
  · exact h
  · next sc rest _ =>
    have h1 := hfold sc tf h
    cases result with
    | none => exact h1
    | some r =>
      simp only
      split
      · exact h1
      · rw [track_tensors]; exact h1

end Engine

/-! ## A failing concatenation -/

theorem concat_mismatch {tf : Engine} {a b : Nat} {ta tb : Tensor}
    (ha : tf.tensors[a]? = some ta) (hb : tf.tensors[b]? = some tb)
    (hal : ta.disposed = false) (hmis : ta.shape.tail ≠ tb.shape.tail) :
    tf.concat a b = .throw .shapeMismatch tf := by
  simp only [Engine.concat, ha, hb, hal]
  cases hsa : ta.shape with
  | nil => simp
  | cons na da =>
    cases hsb : tb.shape with
    | nil => simp
    | cons nb db =>
      have : ¬ da = db := by
        intro e; apply hmis; rw [hsa, hsb]; simpa using e
      simp [this]

/-! ## The batch size in double precision -/

theorem bitLengthAux_zero (fuel : Nat) : bitLengthAux fuel 0 = 0 := by
  cases fuel <;> simp [bitLengthAux]

theorem bitLengthAux_spec (fuel : Nat) : ∀ n, n ≤ fuel →
    n < 2 ^ bitLengthAux fuel n ∧ (0 < n → 2 ^ (bitLengthAux fuel n - 1) ≤ n) := by
  induction fuel with
  | zero =>
    intro n hn
    have : n = 0 := by omega
    subst this
    simp [bitLengthAux]
  | succ fuel ih =>
    intro n hn
    by_cases h0 : n = 0
    · subst h0; simp [bitLengthAux]
    · have hhalf : n / 2 ≤ fuel := by omega
      obtain ⟨hu, hl⟩ := ih (n / 2) hhalf
      simp only [bitLengthAux, h0, if_false, Nat.add_sub_cancel]
      constructor
      · rw [pow_succ]; omega
      · intro _
        by_cases h1 : n / 2 = 0
        · rw [h1, bitLengthAux_zero]; simp; omega
        · have hl2 := hl (Nat.pos_of_ne_zero h1)
          have hb : bitLengthAux fuel (n / 2) ≠ 0 := by
            intro hb
            rw [hb] at hu
            simp at hu
            exact h1 hu
          obtain ⟨b, hb2⟩ := Nat.exists_eq_succ_of_ne_zero hb
          rw [hb2] at hl2 ⊢
          simp only [Nat.succ_eq_add_one, Nat.add_sub_cancel] at hl2
          rw [Nat.succ_eq_add_one, pow_succ]
          omega

theorem bitLength_spec (n : Nat) :
    n < 2 ^ bitLength n ∧ (0 < n → 2 ^ (bitLength n - 1) ≤ n) :=
  bitLengthAux_spec n n (Nat.le_refl n)

/-- Rounding to 53 significant digits never goes below `2 ^ 56` for an argument
that is at least `2 ^ 56`. -/
theorem roundTo53_ge (p : Nat) (hp : 2 ^ 56 ≤ p) : 2 ^ 56 ≤ roundTo53 p := by
  obtain ⟨hu, hl⟩ := bitLength_spec p
  have hpos : 0 < p := lt_of_lt_of_le (by norm_num) hp
  have hl := hl hpos
  have hbl : 57 ≤ bitLength p := by
    by_contra hc
    have h56 : bitLength p ≤ 56 := by omega
    have : 2 ^ bitLength p ≤ 2 ^ 56 := Nat.pow_le_pow_right (by norm_num) h56
    omega
  have hnot : ¬ bitLength p ≤ 53 := by omega
  have hsplit : 2 ^ (bitLength p - 1) = 2 ^ 52 * 2 ^ (bitLength p - 53) := by
    rw [← pow_add]; congr 1; omega
  have hm : 2 ^ 52 ≤ p / 2 ^ (bitLength p - 53) := by
    rw [Nat.le_div_iff_mul_le (Nat.pos_pow_of_pos _ (by norm_num))]
    rw [← hsplit]; exact hl
  have hbase : 2 ^ 56 ≤ p / 2 ^ (bitLength p - 53) * 2 ^ (bitLength p - 53) := by
    calc 2 ^ 56 ≤ 2 ^ (bitLength p - 1) := Nat.pow_le_pow_right (by norm_num) (by omega)
      _ = 2 ^ 52 * 2 ^ (bitLength p - 53) := hsplit
      _ ≤ p / 2 ^ (bitLength p - 53) * 2 ^ (bitLength p - 53) :=
        Nat.mul_le_mul_right _ hm
  have hup : p / 2 ^ (bitLength p - 53) * 2 ^ (bitLength p - 53) ≤
      (p / 2 ^ (bitLength p - 53) + 1) * 2 ^ (bitLength p - 53) :=
    Nat.mul_le_mul_right _ (Nat.le_succ _)
  simp only [roundTo53, hnot, if_false]
  split_ifs <;> omega

theorem floorFraction_pos (n : Nat) (hn : 20 ≤ n) : 1 ≤ floorFraction n := by
  have hp : 2 ^ 56 ≤ n * fractionNum := by
    calc 2 ^ 56 ≤ 20 * fractionNum := by decide
      _ ≤ n * fractionNum := Nat.mul_le_mul_right _ hn
  have h := roundTo53_ge _ hp
  unfold floorFraction
  rw [Nat.le_div_iff_mul_le (by norm_num)]
  simpa using h

theorem floorFraction_small (n : Nat) (hn : n < 20) : floorFraction n = 0 := by
  interval_cases n <;> decide

theorem floorFraction_eq_zero_iff (n : Nat) : floorFraction n = 0 ↔ n < 20 := by
  constructor
  · intro h
    by_contra hc
    have := floorFraction_pos n (by omega)
    omega
  · exact floorFraction_small n

theorem roundTo53_bounds (p : Nat) (hb : ¬ bitLength p ≤ 53) :
    p / 2 ^ (bitLength p - 53) * 2 ^ (bitLength p - 53) ≤ roundTo53 p ∧
    roundTo53 p ≤ p / 2 ^ (bitLength p - 53) * 2 ^ (bitLength p - 53) +
      2 ^ (bitLength p - 53) := by
  simp only [roundTo53, hb, if_false, Nat.add_mul, Nat.one_mul]
  split_ifs <;> omega

/-- For every count below `2 ^ 32` the double-precision batch size is the exact
quotient by 20. -/
theorem floorFraction_eq_div (n : Nat) (hn : n < 2 ^ 32) : floorFraction n = n / 20 := by
  have hc : 20 * fractionNum = 2 ^ 56 + 4 := by decide
  have hP : 20 * (n * fractionNum) = n * (2 ^ 56 + 4) := by
    rw [← hc]; ring
  have hq : n = 20 * (n / 20) + n % 20 := (Nat.div_add_mod n 20).symm
  have hr : n % 20 < 20 := Nat.mod_lt _ (by norm_num)
  generalize hPdef : n * fractionNum = P at hP
  generalize n / 20 = q at hq
  generalize n % 20 = r at hq hr
  have key : q * 2 ^ 56 ≤ roundTo53 P ∧ roundTo53 P < (q + 1) * 2 ^ 56 := by
    obtain ⟨hu, hl⟩ := bitLength_spec P
    by_cases hb : bitLength P ≤ 53
    · simp only [roundTo53, hb, if_true]
      norm_num at hP hn ⊢
      omega
    · have hPpos : 0 < P := by
        by_contra h0
        have : P = 0 := by omega
        rw [this] at hb
        exact hb (by decide)
      have hl := hl hPpos
      have hPlt : P < 2 ^ 84 := by norm_num at hP hn ⊢; omega
      have hbl : bitLength P ≤ 84 := by
        by_contra hc2
        have : 2 ^ 84 ≤ 2 ^ (bitLength P - 1) := Nat.pow_le_pow_right (by norm_num) (by omega)
        omega
      have hSpos : 0 < 2 ^ (bitLength P - 53) := Nat.pos_pow_of_pos _ (by norm_num)
      have hSle : 2 ^ (bitLength P - 53) ≤ 2 ^ 31 :=
        Nat.pow_le_pow_right (by norm_num) (by omega)
      have hsplit : 2 ^ 56 = 2 ^ (56 - (bitLength P - 53)) * 2 ^ (bitLength P - 53) := by
        rw [← pow_add]; congr 1; omega
      have hqP : q * 2 ^ 56 ≤ P := by norm_num at hP ⊢; omega
      have hm : q * 2 ^ (56 - (bitLength P - 53)) ≤ P / 2 ^ (bitLength P - 53) := by
        rw [Nat.le_div_iff_mul_le hSpos, Nat.mul_assoc, ← hsplit]
        exact hqP
      have hlow : q * 2 ^ 56 ≤ P / 2 ^ (bitLength P - 53) * 2 ^ (bitLength P - 53) := by
        calc q * 2 ^ 56 = q * 2 ^ (56 - (bitLength P - 53)) * 2 ^ (bitLength P - 53) := by
              rw [Nat.mul_assoc, ← hsplit]
          _ ≤ _ := Nat.mul_le_mul_right _ hm
      have hdiv : P / 2 ^ (bitLength P - 53) * 2 ^ (bitLength P - 53) ≤ P :=
        Nat.div_mul_le_self _ _
      obtain ⟨hlo, hhi⟩ := roundTo53_bounds P hb
      generalize P / 2 ^ (bitLength P - 53) * 2 ^ (bitLength P - 53) = A at hlow hdiv hlo hhi
      generalize roundTo53 P = R at hlo hhi ⊢
      generalize 2 ^ (bitLength P - 53) = S at hSle hhi
      norm_num at hP hn hSle hlow ⊢
      omega
  unfold floorFraction
  rw [hPdef]
  exact Nat.div_eq_of_lt_le key.1 key.2

/-- C4: for every non-empty list of concatenable examples, adding them one at
a time, each from a buffer of its own, succeeds every time and leaves `xs` equal
by value to the axis-0 concatenation of the examples in call order, and `ys`
equal by value to the stack of the one-hot rows of the labels in call order. -/
theorem addExample_batched_equivalence (tf : Engine) (nc : Nat) (dims : List Nat)
    (examples : List Example) (hne : examples ≠ []) (hc : Concatenable dims examples) :
    ((Session.start tf nc).run examples).successes = examples.length ∧
    ((Session.start tf nc).run examples).tf.value ((Session.start tf nc).run examples).ds.xs =
      some (batchedFeatures dims examples) ∧
    ((Session.start tf nc).run examples).tf.value ((Session.start tf nc).run examples).ds.ys =
      some (batchedLabels nc examples) := by
  have h := accumulated_run tf nc dims examples hne hc
  exact ⟨h.1, value_of_accumulated h⟩

/-- C4 at three examples of shape `[1, 2]`. -/
theorem addExample_batched_equivalence_witness :
    [(⟨[1, 2], [1, 3], 2⟩ : Example), ⟨[1, 2], [5, 6], 0⟩, ⟨[1, 2], [7, 8], 3⟩] ≠ [] ∧
    Concatenable [2] [⟨[1, 2], [1, 3], 2⟩, ⟨[1, 2], [5, 6], 0⟩, ⟨[1, 2], [7, 8], 3⟩] ∧
    ((Session.start ⟨[], []⟩ 4).run
        [⟨[1, 2], [1, 3], 2⟩, ⟨[1, 2], [5, 6], 0⟩, ⟨[1, 2], [7, 8], 3⟩]).tf.value
      ((Session.start ⟨[], []⟩ 4).run
        [⟨[1, 2], [1, 3], 2⟩, ⟨[1, 2], [5, 6], 0⟩, ⟨[1, 2], [7, 8], 3⟩]).ds.xs =
      some ([3, 2], [1, 3, 5, 6, 7, 8]) :=
  ⟨by decide, by decide,
    (addExample_batched_equivalence ⟨[], []⟩ 4 [2] _ (by decide) (by decide)).2.1.trans
      (by decide)⟩

/-- C2: after the calls of a sequence of concatenable examples whose labels are
integers in `[0, numClasses)`, `ys` has shape `[k, numClasses]` and, for every
`i < k`, row `i` has length `numClasses`, holds 1 in the column equal to the
`i`-th label and 0 in every other column, and holds exactly one 1. -/
theorem addExample_one_hot_rows (tf : Engine) (nc : Nat) (dims : List Nat)
    (examples : List Example) (hc : Concatenable dims examples)
    (hl : ∀ e ∈ examples, ∃ l : Nat, l < nc ∧ e.label = (l : ℚ))
    (i : Nat) (hi : i < examples.length) :
    ∃ data, ((Session.start tf nc).run examples).tf.value
        ((Session.start tf nc).run examples).ds.ys = some ([examples.length, nc], data) ∧
      (rowOf data nc i).length = nc ∧
      (∀ j, j < nc → (rowOf data nc i)[j]? =
        some (if examples[i].label = (j : ℚ) then 1 else 0)) ∧
      (rowOf data nc i).count 1 = 1 := by
  have hne : examples ≠ [] := by
    intro h; subst h; exact absurd hi (Nat.not_lt_zero _)
  have h := (value_of_accumulated (accumulated_run tf nc dims examples hne hc)).2
  refine ⟨_, h, ?_⟩
  have hrow : rowOf (examples.map
      (fun e => Engine.oneHotRow nc (Engine.truncate e.label))).flatten nc i =
      Engine.oneHotRow nc (Engine.truncate examples[i].label) := by
    rw [rowOf_flatten _ nc (by
      intro r hr
      simp only [List.mem_map] at hr
      obtain ⟨e, _, rfl⟩ := hr
      exact oneHotRow_length _ _) i (by simpa using hi)]
    simp
  obtain ⟨l, hlt, hlab⟩ := hl examples[i] (List.getElem_mem _)
  show (rowOf (examples.map
      (fun e => Engine.oneHotRow nc (Engine.truncate e.label))).flatten nc i).length = nc ∧ _
  rw [hrow, hlab, truncate_natCast]
  exact ⟨oneHotRow_length _ _, fun j hj => oneHotRow_getElem? _ _ j hj, oneHotRow_count nc l hlt⟩

/-- C2 at the spec's scenario: four classes, labels 2 then 0. -/
theorem addExample_one_hot_rows_witness :
    Concatenable [2] [⟨[1, 2], [1, 3], 2⟩, ⟨[1, 2], [5, 6], 0⟩] ∧
    (∀ e ∈ [(⟨[1, 2], [1, 3], 2⟩ : Example), ⟨[1, 2], [5, 6], 0⟩],
      ∃ l : Nat, l < 4 ∧ e.label = (l : ℚ)) ∧
    ((Session.start ⟨[], []⟩ 4).run [⟨[1, 2], [1, 3], 2⟩, ⟨[1, 2], [5, 6], 0⟩]).tf.value
      ((Session.start ⟨[], []⟩ 4).run [⟨[1, 2], [1, 3], 2⟩, ⟨[1, 2], [5, 6], 0⟩]).ds.ys =
      some ([2, 4], [0, 0, 1, 0, 1, 0, 0, 0]) ∧
    ∃ data, ((Session.start ⟨[], []⟩ 4).run
        [⟨[1, 2], [1, 3], 2⟩, ⟨[1, 2], [5, 6], 0⟩]).tf.value
      ((Session.start ⟨[], []⟩ 4).run [⟨[1, 2], [1, 3], 2⟩, ⟨[1, 2], [5, 6], 0⟩]).ds.ys =
        some ([2, 4], data) ∧ (rowOf data 4 1).count 1 = 1 :=
  ⟨by decide,
    by
      intro e he
      simp only [List.mem_cons, List.mem_singleton, List.not_mem_nil, or_false] at he
      rcases he with rfl | rfl
      · exact ⟨2, by decide, by norm_num⟩
      · exact ⟨0, by decide, by norm_num⟩,
    by decide,
    (addExample_one_hot_rows ⟨[], []⟩ 4 [2] [⟨[1, 2], [1, 3], 2⟩, ⟨[1, 2], [5, 6], 0⟩]
      (by decide)
      (by
        intro e he
        simp only [List.mem_cons, List.mem_singleton, List.not_mem_nil, or_false] at he
        rcases he with rfl | rfl
        · exact ⟨2, by decide, by norm_num⟩
        · exact ⟨0, by decide, by norm_num⟩)
      1 (by decide)).imp (fun _ h => ⟨h.1, h.2.2.2⟩)⟩


/-- C1 (the claim as stated fails): a single example buffer of shape `[2, 3]`
is concatenable with itself, yet after the one call `xs.shape[0]` is 2 while
`ys.shape[0]` and the number of successful calls are 1. -/
theorem alignment_fails_for_batched_example :
    Concatenable [3] [⟨[2, 3], [1, 2, 3, 4, 5, 6], 0⟩] ∧
    ((Session.start ⟨[], []⟩ 4).run [⟨[2, 3], [1, 2, 3, 4, 5, 6], 0⟩]).successes = 1 ∧
    ((Session.start ⟨[], []⟩ 4).run [⟨[2, 3], [1, 2, 3, 4, 5, 6], 0⟩]).tf.leadingDim
      ((Session.start ⟨[], []⟩ 4).run [⟨[2, 3], [1, 2, 3, 4, 5, 6], 0⟩]).ds.xs = some 2 ∧
    ((Session.start ⟨[], []⟩ 4).run [⟨[2, 3], [1, 2, 3, 4, 5, 6], 0⟩]).tf.leadingDim
      ((Session.start ⟨[], []⟩ 4).run [⟨[2, 3], [1, 2, 3, 4, 5, 6], 0⟩]).ds.ys = some 1 ∧
    ¬ ((Session.start ⟨[], []⟩ 4).run [⟨[2, 3], [1, 2, 3, 4, 5, 6], 0⟩]).aligned := by
  decide

/-- C1 (amended): before any call `xs` and `ys` are absent; for every sequence
of example buffers of shape `[1, ...dims]`, after each call all calls so far
have succeeded, `xs` and `ys` are present and
`xs.shape[0] == ys.shape[0] ==` the number of successful calls. -/
theorem addExample_alignment (tf : Engine) (nc : Nat) (dims : List Nat)
    (examples : List Example) (h1 : ∀ e ∈ examples, e.shape = 1 :: dims) :
    (Session.start tf nc).ds.xs = none ∧ (Session.start tf nc).ds.ys = none ∧
    ∀ n, 0 < n → n ≤ examples.length →
      ((Session.start tf nc).run (examples.take n)).successes = n ∧
      ((Session.start tf nc).run (examples.take n)).aligned := by
  refine ⟨rfl, rfl, ?_⟩
  intro n hn hle
  have hlen : (examples.take n).length = n := by simp [hle]
  have hne : examples.take n ≠ [] := by
    intro h; rw [h] at hlen; simp at hlen; omega
  have hc : Concatenable dims (examples.take n) := by
    intro e he
    rw [h1 e (List.mem_of_mem_take he)]
    simp
  have hacc := accumulated_run tf nc dims (examples.take n) hne hc
  have hsum : ((examples.take n).map (fun e => e.shape.headD 0)).sum = n := by
    have : (examples.take n).map (fun e => e.shape.headD 0) =
        (examples.take n).map (fun _ => 1) := by
      apply List.map_congr_left
      intro e he
      rw [h1 e (List.mem_of_mem_take he)]
      rfl
    rw [this]
    simp [hle]
  obtain ⟨hs, _, x, y, hx, hy, htx, hty⟩ := hacc
  refine ⟨hs.trans hlen, ?_⟩
  simp only [Session.aligned, hx, hy, Engine.leadingDim, htx, hty, batchedFeatures,
    batchedLabels, hs, hsum, hlen]
  simp

/-- C1 (amended) at two examples of shape `[1, 2]`. -/
theorem addExample_alignment_witness :
    (∀ e ∈ [(⟨[1, 2], [1, 3], 2⟩ : Example), ⟨[1, 2], [5, 6], 0⟩], e.shape = 1 :: [2]) ∧
    ((Session.start ⟨[], []⟩ 4).run
      (([(⟨[1, 2], [1, 3], 2⟩ : Example), ⟨[1, 2], [5, 6], 0⟩]).take 2)).aligned :=
  ⟨by decide,
    ((addExample_alignment ⟨[], []⟩ 4 [2] [⟨[1, 2], [1, 3], 2⟩, ⟨[1, 2], [5, 6], 0⟩]
      (by decide)).2.2 2 (by decide) (by decide)).2⟩

/-- C3: on a non-empty dataset whose `xs` is live, an example whose dimensions
after the first disagree with those of `xs` makes the call throw the shape
mismatch; the dataset object still holds the same two handles, and behind them
the same tensors as before the call: same shape, same values, not released. -/
theorem addExample_failure_atomic (tf : Engine) (ds : ControllerDataset) (ex : Nat)
    (label : ℚ) (x y : Nat) (tx ty te : Tensor)
    (hx : ds.xs = some x) (hy : ds.ys = some y)
    (htx : tf.tensors[x]? = some tx) (hty : tf.tensors[y]? = some ty)
    (hte : tf.tensors[ex]? = some te) (hxl : tx.disposed = false)
    (hmis : tx.shape.tail ≠ te.shape.tail) :
    addExample tf ds ex label =
      .throw .shapeMismatch (addExample tf ds ex label).tf ds ∧
    (addExample tf ds ex label).tf.tensors[x]? = some tx ∧
    (addExample tf ds ex label).tf.tensors[y]? = some ty ∧
    (addExample tf ds ex label).tf.value ds.xs = tf.value ds.xs ∧
    (addExample tf ds ex label).tf.value ds.ys = tf.value ds.ys ∧
    (addExample tf ds ex label).tf.isLive x = tf.isLive x ∧
    (addExample tf ds ex label).tf.isLive y = tf.isLive y := by
  have hxL := lt_length_of_getElem? htx
  have hyL := lt_length_of_getElem? hty
  have heL := lt_length_of_getElem? hte
  have h1 : (afterLabel tf label ds.numClasses).tensors[x]? = some tx :=
    (afterLabel_old tf label ds.numClasses hxL).trans htx
  have h2 : (afterLabel tf label ds.numClasses).tensors[y]? = some ty :=
    (afterLabel_old tf label ds.numClasses hyL).trans hty
  have h3 : (afterLabel tf label ds.numClasses).tensors[ex]? = some te :=
    (afterLabel_old tf label ds.numClasses heL).trans hte
  rw [addExample_throw_xs tf ds ex label hx (concat_mismatch h1 h3 hxl hmis)]
  refine ⟨rfl, h1, h2, ?_, ?_, ?_, ?_⟩
  · simp only [Outcome.tf, Engine.value, hx, h1, htx]
  · simp only [Outcome.tf, Engine.value, hy, h2, hty]
  · simp only [Outcome.tf, Engine.isLive, h1, htx]
  · simp only [Outcome.tf, Engine.isLive, h2, hty]

/-- C3 at an accumulated `[1, 2]` buffer and an example of shape `[1, 3]`. -/
theorem addExample_failure_atomic_witness :
    (⟨[1, 2], [1, 3], false, true⟩ : Tensor).shape.tail ≠
      (⟨[1, 3], [5, 6, 7], false, false⟩ : Tensor).shape.tail ∧
    (addExample
        ⟨[⟨[1, 2], [1, 3], false, true⟩, ⟨[1, 4], [0, 0, 1, 0], false, true⟩,
          ⟨[1, 3], [5, 6, 7], false, false⟩], []⟩ ⟨4, some 0, some 1⟩ 2 1).tf.tensors[0]? =
      some ⟨[1, 2], [1, 3], false, true⟩ :=
  ⟨by decide,
    (addExample_failure_atomic
      ⟨[⟨[1, 2], [1, 3], false, true⟩, ⟨[1, 4], [0, 0, 1, 0], false, true⟩,
        ⟨[1, 3], [5, 6, 7], false, false⟩], []⟩ ⟨4, some 0, some 1⟩ 2 1 0 1
      ⟨[1, 2], [1, 3], false, true⟩ ⟨[1, 4], [0, 0, 1, 0], false, true⟩
      ⟨[1, 3], [5, 6, 7], false, false⟩ rfl rfl rfl rfl rfl rfl (by decide)).2.1⟩

/-- C5 (the claim as stated fails): after a first call `xs` is buffer 0 and
`ys` is buffer 4, both live; the second call succeeds and leaves both of them
released, so a reference kept to either is no longer valid. -/
theorem old_buffers_released_by_append :
    (addExample ⟨[⟨[1, 2], [1, 3], false, false⟩, ⟨[1, 2], [5, 6], false, false⟩], []⟩
      (ControllerDataset.new 4) 0 2).ds = ⟨4, some 0, some 4⟩ ∧
    (addExample ⟨[⟨[1, 2], [1, 3], false, false⟩, ⟨[1, 2], [5, 6], false, false⟩], []⟩
      (ControllerDataset.new 4) 0 2).tf.isLive 0 = true ∧
    (addExample ⟨[⟨[1, 2], [1, 3], false, false⟩, ⟨[1, 2], [5, 6], false, false⟩], []⟩
      (ControllerDataset.new 4) 0 2).tf.isLive 4 = true ∧
    (addExample
      (addExample ⟨[⟨[1, 2], [1, 3], false, false⟩, ⟨[1, 2], [5, 6], false, false⟩], []⟩
        (ControllerDataset.new 4) 0 2).tf ⟨4, some 0, some 4⟩ 1 0).succeeded = true ∧
    (addExample
      (addExample ⟨[⟨[1, 2], [1, 3], false, false⟩, ⟨[1, 2], [5, 6], false, false⟩], []⟩
        (ControllerDataset.new 4) 0 2).tf ⟨4, some 0, some 4⟩ 1 0).tf.isLive 0 = false ∧
    (addExample
      (addExample ⟨[⟨[1, 2], [1, 3], false, false⟩, ⟨[1, 2], [5, 6], false, false⟩], []⟩
        (ControllerDataset.new 4) 0 2).tf ⟨4, some 0, some 4⟩ 1 0).tf.isLive 4 = false := by
  decide

/-- C5 (amended): a successful call on a non-empty dataset does not write to
the buffers that were `xs` and `ys`: their shapes and values are as before and
the only change to them is that they are released; `xs` and `ys` are replaced
by two buffers that did not exist before the call, holding the old values
followed by the new rows; every other buffer that existed is untouched. -/
theorem addExample_replaces_buffers (tf : Engine) (ds : ControllerDataset) (ex : Nat)
    (label : ℚ) (x y n k m : Nat) (dims : List Nat) (tx ty te : Tensor)
    (hx : ds.xs = some x) (hy : ds.ys = some y)
    (htx : tf.tensors[x]? = some tx) (hxl : tx.disposed = false) (hxs : tx.shape = n :: dims)
    (hte : tf.tensors[ex]? = some te) (hel : te.disposed = false) (hes : te.shape = k :: dims)
    (hty : tf.tensors[y]? = some ty) (hyl : ty.disposed = false)
    (hys : ty.shape = [m, ds.numClasses]) :
    (addExample tf ds ex label).succeeded = true ∧
    (addExample tf ds ex label).tf.tensors[x]? = some { tx with disposed := true } ∧
    (addExample tf ds ex label).tf.tensors[y]? = some { ty with disposed := true } ∧
    (addExample tf ds ex label).ds.xs = some (tf.tensors.length + 3) ∧
    (addExample tf ds ex label).ds.ys = some (tf.tensors.length + 4) ∧
    tf.tensors[tf.tensors.length + 3]? = none ∧ tf.tensors[tf.tensors.length + 4]? = none ∧
    (addExample tf ds ex label).tf.value (addExample tf ds ex label).ds.xs =
      some ((n + k) :: dims, tx.data ++ te.data) ∧
    (addExample tf ds ex label).tf.value (addExample tf ds ex label).ds.ys =
      some ([m + 1, ds.numClasses],
        ty.data ++ Engine.oneHotRow ds.numClasses (Engine.truncate label)) ∧
    ∀ j, j ≠ x → j ≠ y → j < tf.tensors.length →
      (addExample tf ds ex label).tf.tensors[j]? = tf.tensors[j]? := by
  have hxL := lt_length_of_getElem? htx
  have hyL := lt_length_of_getElem? hty
  rw [addExample_append tf ds ex label hx hy htx hxl hxs hte hel hes hty hyl hys]
  simp only [Outcome.succeeded, Outcome.tf, Outcome.ds, Engine.value,
    afterAppend_getElem? _ _ _ _ _ _ _ _ _ hxL hyL]
  refine ⟨trivial, ?_, ?_, trivial, trivial, ?_, ?_, ?_, ?_, ?_⟩
  · simp [hxL, htx]
  · simp [hyL, hty]
  · exact List.getElem?_eq_none (by omega)
  · exact List.getElem?_eq_none (by omega)
  · simp
  · simp
  · intro j h1 h2 h3
    simp only [h3, if_true, h1, h2, or_self, if_false]
    cases tf.tensors[j]? <;> rfl

/-- C5 (amended) at a dataset holding one example and a second example. -/
theorem addExample_replaces_buffers_witness :
    (addExample
        ⟨[⟨[1, 2], [1, 3], false, true⟩, ⟨[1, 4], [0, 0, 1, 0], false, true⟩,
          ⟨[1, 2], [5, 6], false, false⟩], []⟩ ⟨4, some 0, some 1⟩ 2 1).tf.tensors[0]? =
      some ⟨[1, 2], [1, 3], true, true⟩ ∧
    (addExample
        ⟨[⟨[1, 2], [1, 3], false, true⟩, ⟨[1, 4], [0, 0, 1, 0], false, true⟩,
          ⟨[1, 2], [5, 6], false, false⟩], []⟩ ⟨4, some 0, some 1⟩ 2 1).ds.xs = some 6 :=
  ⟨(addExample_replaces_buffers
      ⟨[⟨[1, 2], [1, 3], false, true⟩, ⟨[1, 4], [0, 0, 1, 0], false, true⟩,
        ⟨[1, 2], [5, 6], false, false⟩], []⟩ ⟨4, some 0, some 1⟩ 2 1 0 1 1 1 1 [2]
      ⟨[1, 2], [1, 3], false, true⟩ ⟨[1, 4], [0, 0, 1, 0], false, true⟩
      ⟨[1, 2], [5, 6], false, false⟩ rfl rfl rfl rfl rfl rfl rfl rfl rfl rfl rfl).2.1,
    (addExample_replaces_buffers
      ⟨[⟨[1, 2], [1, 3], false, true⟩, ⟨[1, 4], [0, 0, 1, 0], false, true⟩,
        ⟨[1, 2], [5, 6], false, false⟩], []⟩ ⟨4, some 0, some 1⟩ 2 1 0 1 1 1 1 [2]
      ⟨[1, 2], [1, 3], false, true⟩ ⟨[1, 4], [0, 0, 1, 0], false, true⟩
      ⟨[1, 2], [5, 6], false, false⟩ rfl rfl rfl rfl rfl rfl rfl rfl rfl rfl rfl).2.2.2.1⟩

/-- C6: a call on an accumulator in a between-calls state, with a live example
of matching dimensions, returns; afterwards `xs` and `ys` name two live, kept
buffers, and of everything the call itself created nothing else is live. On a
non-first call the previous `xs`, the previous `ys` and the one-hot row `y` are
all released, and `xs` and `ys` are the two buffers created by the
concatenations. The between-calls state holds again after the call. -/
theorem addExample_live_buffers (tf : Engine) (ds : ControllerDataset) (ex : Nat)
    (label : ℚ) (dims : List Nat) (te : Tensor) (k : Nat)
    (hacc : Accumulating tf ds dims)
    (hte : tf.tensors[ex]? = some te) (hel : te.disposed = false)
    (hes : te.shape = k :: dims) :
    (addExample tf ds ex label).succeeded = true ∧
    (∃ x1 y1, (addExample tf ds ex label).ds.xs = some x1 ∧
      (addExample tf ds ex label).ds.ys = some y1 ∧
      (addExample tf ds ex label).tf.isLive x1 = true ∧
      (addExample tf ds ex label).tf.isKept x1 = true ∧
      (addExample tf ds ex label).tf.isLive y1 = true ∧
      (addExample tf ds ex label).tf.isKept y1 = true ∧
      ∀ j, tf.tensors.length ≤ j → (addExample tf ds ex label).tf.isLive j = true →
        j = x1 ∨ j = y1) ∧
    (∀ x y, ds.xs = some x → ds.ys = some y →
      (addExample tf ds ex label).tf.isLive x = false ∧
      (addExample tf ds ex label).tf.isLive y = false ∧
      (∀ y0 tf1, oneHotLabel tf label ds.numClasses = .ok y0 tf1 →
        (addExample tf ds ex label).tf.isLive y0 = false) ∧
      (addExample tf ds ex label).ds.xs = some (tf.tensors.length + 3) ∧
      (addExample tf ds ex label).ds.ys = some (tf.tensors.length + 4) ∧
      tf.tensors[tf.tensors.length + 3]? = none ∧
      tf.tensors[tf.tensors.length + 4]? = none) ∧
    Accumulating (addExample tf ds ex label).tf (addExample tf ds ex label).ds dims := by
  have heL := lt_length_of_getElem? hte
  rcases hacc with ⟨hx, hy⟩ | ⟨x, y, tx, ty, n, m, hx, hy, htx, hxl, hxs, hty, hyl, hys⟩
  · rw [addExample_first tf ds ex label hx]
    simp only [Outcome.succeeded, Outcome.tf, Outcome.ds, Engine.isLive, Engine.isKept,
      afterFirst_getElem? _ _ _ _ heL]
    refine ⟨trivial, ⟨ex, tf.tensors.length + 2, rfl, rfl, ?_, ?_, ?_, ?_, ?_⟩, ?_, ?_⟩
    · simp [heL, hte, hel]
    · simp [heL, hte]
    · simp
    · simp
    · intro j hj hlive
      have h0 : ¬ j < tf.tensors.length := by omega
      simp only [h0, if_false] at hlive
      split_ifs at hlive with h1 h2 h3
      · simp at hlive
      · simp at hlive
      · exact Or.inr h3
    · intro x y hx2
      rw [hx] at hx2
      exact Option.noConfusion hx2
    · refine Or.inr ⟨ex, tf.tensors.length + 2, { te with kept := true },
        ⟨[1, ds.numClasses], Engine.oneHotRow ds.numClasses (Engine.truncate label), false, true⟩,
        k, 1, rfl, rfl, ?_, hel, hes, ?_, rfl, rfl⟩
      · rw [afterFirst_getElem? _ _ _ _ heL]; simp [heL, hte]
      · rw [afterFirst_getElem? _ _ _ _ heL]; simp
  · have hxL := lt_length_of_getElem? htx
    have hyL := lt_length_of_getElem? hty
    rw [addExample_append tf ds ex label hx hy htx hxl hxs hte hel hes hty hyl hys]
    simp only [Outcome.succeeded, Outcome.tf, Outcome.ds, Engine.isLive, Engine.isKept,
      afterAppend_getElem? _ _ _ _ _ _ _ _ _ hxL hyL]
    refine ⟨trivial, ⟨tf.tensors.length + 3, tf.tensors.length + 4, rfl, rfl, ?_, ?_, ?_, ?_, ?_⟩,
      ?_, ?_⟩
    · simp
    · simp
    · simp
    · simp
    · intro j hj hlive
      have h0 : ¬ j < tf.tensors.length := by omega
      simp only [h0, if_false] at hlive
      split_ifs at hlive with h1 h2 h3 h4 h5
      · simp at hlive
      · simp at hlive
      · simp at hlive
      · exact Or.inl h4
      · exact Or.inr h5
    · intro x2 y2 hx2 hy2
      rw [hx] at hx2
      rw [hy] at hy2
      injection hx2 with hx2
      injection hy2 with hy2
      subst hx2
      subst hy2
      refine ⟨by simp [hxL, htx], by simp [hyL, hty], ?_, trivial, trivial,
        List.getElem?_eq_none (by omega), List.getElem?_eq_none (by omega)⟩
      intro y0 tf1 h0
      rw [oneHotLabel_eq] at h0
      injection h0 with h0 _
      subst h0
      simp
    · refine Or.inr ⟨tf.tensors.length + 3, tf.tensors.length + 4,
        ⟨(n + k) :: dims, tx.data ++ te.data, false, true⟩,
        ⟨[m + 1, ds.numClasses],
          ty.data ++ Engine.oneHotRow ds.numClasses (Engine.truncate label), false, true⟩,
        n + k, m + 1, rfl, rfl, ?_, rfl, rfl, ?_, rfl, rfl⟩
      · rw [afterAppend_getElem? _ _ _ _ _ _ _ _ _ hxL hyL]; simp
      · rw [afterAppend_getElem? _ _ _ _ _ _ _ _ _ hxL hyL]; simp

/-- C6 at a dataset holding one example and a second example. -/
theorem addExample_live_buffers_witness :
    Accumulating
      ⟨[⟨[1, 2], [1, 3], false, true⟩, ⟨[1, 4], [0, 0, 1, 0], false, true⟩,
        ⟨[1, 2], [5, 6], false, false⟩], []⟩ ⟨4, some 0, some 1⟩ [2] ∧
    (addExample
      ⟨[⟨[1, 2], [1, 3], false, true⟩, ⟨[1, 4], [0, 0, 1, 0], false, true⟩,
        ⟨[1, 2], [5, 6], false, false⟩], []⟩ ⟨4, some 0, some 1⟩ 2 1).succeeded = true :=
  ⟨Or.inr ⟨0, 1, ⟨[1, 2], [1, 3], false, true⟩, ⟨[1, 4], [0, 0, 1, 0], false, true⟩, 1, 1,
      rfl, rfl, rfl, rfl, rfl, rfl, rfl, rfl⟩,
    (addExample_live_buffers
      ⟨[⟨[1, 2], [1, 3], false, true⟩, ⟨[1, 4], [0, 0, 1, 0], false, true⟩,
        ⟨[1, 2], [5, 6], false, false⟩], []⟩ ⟨4, some 0, some 1⟩ 2 1 [2]
      ⟨[1, 2], [5, 6], false, false⟩ 1
      (Or.inr ⟨0, 1, ⟨[1, 2], [1, 3], false, true⟩, ⟨[1, 4], [0, 0, 1, 0], false, true⟩, 1, 1,
        rfl, rfl, rfl, rfl, rfl, rfl, rfl, rfl⟩) rfl rfl rfl).1⟩

/-- C7: a call on an empty dataset returns; `xs` becomes the handle passed as
the example, which still names the same tensor (same shape, same values, no
release), now marked kept; `ys` becomes the handle of the one-hot row the call
computed, live and marked kept; `xs.shape[0]` is the leading dimension of the
example and `ys.shape[0]` is 1; closing any enclosing tidy scope releases
neither of the two. -/
theorem addExample_first_ownership (tf : Engine) (ds : ControllerDataset) (ex : Nat)
    (label : ℚ) (te : Tensor) (hx : ds.xs = none) (hte : tf.tensors[ex]? = some te) :
    (addExample tf ds ex label).succeeded = true ∧
    (addExample tf ds ex label).ds.xs = some ex ∧
    (∃ tf1, oneHotLabel tf label ds.numClasses = .ok (tf.tensors.length + 2) tf1) ∧
    (addExample tf ds ex label).ds.ys = some (tf.tensors.length + 2) ∧
    (addExample tf ds ex label).tf.tensors[ex]? = some { te with kept := true } ∧
    (addExample tf ds ex label).tf.tensors[tf.tensors.length + 2]? =
      some ⟨[1, ds.numClasses], Engine.oneHotRow ds.numClasses (Engine.truncate label),
        false, true⟩ ∧
    (addExample tf ds ex label).tf.leadingDim (addExample tf ds ex label).ds.xs =
      te.shape.head? ∧
    (addExample tf ds ex label).tf.leadingDim (addExample tf ds ex label).ds.ys = some 1 ∧
    ∀ result,
      ((addExample tf ds ex label).tf.endScope result).tensors[ex]? =
        some { te with kept := true } ∧
      ((addExample tf ds ex label).tf.endScope result).tensors[tf.tensors.length + 2]? =
        some ⟨[1, ds.numClasses], Engine.oneHotRow ds.numClasses (Engine.truncate label),
          false, true⟩ := by
  have heL := lt_length_of_getElem? hte
  have h1 : (((afterLabel tf label ds.numClasses).keep ex).keep
      (tf.tensors.length + 2)).tensors[ex]? = some { te with kept := true } := by
    rw [afterFirst_getElem? _ _ _ _ heL]; simp [heL, hte]
  have h2 : (((afterLabel tf label ds.numClasses).keep ex).keep
      (tf.tensors.length + 2)).tensors[tf.tensors.length + 2]? =
      some ⟨[1, ds.numClasses], Engine.oneHotRow ds.numClasses (Engine.truncate label),
        false, true⟩ := by
    rw [afterFirst_getElem? _ _ _ _ heL]; simp
  rw [addExample_first tf ds ex label hx]
  simp only [Outcome.succeeded, Outcome.tf, Outcome.ds, Engine.leadingDim, h1, h2]
  refine ⟨trivial, trivial, ⟨_, oneHotLabel_eq tf label ds.numClasses⟩, trivial, trivial,
    trivial, trivial, ?_, ?_⟩
  · simp
  · intro result
    exact ⟨Engine.endScope_kept _ result ex _ h1 rfl,
      Engine.endScope_kept _ result _ _ h2 rfl⟩

/-- C7 at a fresh dataset, called inside an open tidy scope. -/
theorem addExample_first_ownership_witness :
    (ControllerDataset.new 4).xs = none ∧
    (addExample ⟨[⟨[1, 2], [1, 3], false, false⟩], [[0]]⟩ (ControllerDataset.new 4) 0
      2).tf.tensors[0]? = some ⟨[1, 2], [1, 3], false, true⟩ :=
  ⟨rfl, (addExample_first_ownership ⟨[⟨[1, 2], [1, 3], false, false⟩], [[0]]⟩
    (ControllerDataset.new 4) 0 2 ⟨[1, 2], [1, 3], false, false⟩ rfl rfl).2.2.2.2.1⟩

/-- C8: `train` fails with the empty-dataset error when `xs` is absent;
otherwise, with `N = xs.shape[0]`, it fails with the batch-size error exactly
when `Math.floor(N * 0.05)` is 0, which is exactly when `N < 20`, and for every
`N >= 20` it reaches `model.fit` with that batch size, which is at least 1;
for every `N` below `2 ^ 32` the double-precision value is the exact
`floor(N / 20)`. -/
theorem train_preconditions (tf : Engine) (ds : ControllerDataset) :
    (ds.xs = none → train tf ds = .emptyDataset) ∧
    ∀ x n, ds.xs = some x → tf.leadingDim (some x) = some n →
      (train tf ds = .invalidBatchSize ↔ floorFraction n = 0) ∧
      (floorFraction n = 0 ↔ n < 20) ∧
      (20 ≤ n → train tf ds = .fit x ds.ys (floorFraction n) 20 ∧ 1 ≤ floorFraction n) ∧
      (n < 2 ^ 32 → floorFraction n = n / 20) := by
  constructor
  · intro h; simp only [train, h]
  · intro x n hx hn
    have ht : train tf ds =
        if ¬ (floorFraction n > 0) then .invalidBatchSize
        else .fit x ds.ys (floorFraction n) 20 := by
      simp only [train, hx, hn]
    refine ⟨?_, floorFraction_eq_zero_iff n, ?_, floorFraction_eq_div n⟩
    · rw [ht]
      by_cases h0 : floorFraction n = 0
      · simp [h0]
      · have : floorFraction n > 0 := Nat.pos_of_ne_zero h0
        simp [this, h0]
    · intro h20
      have hpos := floorFraction_pos n h20
      have : floorFraction n > 0 := hpos
      exact ⟨by rw [ht]; simp [this], hpos⟩

/-- C8 at an empty dataset, at 19 examples and at 40 examples. -/
theorem train_preconditions_witness :
    train ⟨[], []⟩ (ControllerDataset.new 4) = .emptyDataset ∧
    train ⟨[⟨[19, 2], [], false, true⟩], []⟩ ⟨4, some 0, none⟩ = .invalidBatchSize ∧
    train ⟨[⟨[40, 2], [], false, true⟩], []⟩ ⟨4, some 0, none⟩ = .fit 0 none 2 20 :=
  ⟨(train_preconditions ⟨[], []⟩ (ControllerDataset.new 4)).1 rfl,
    (((train_preconditions ⟨[⟨[19, 2], [], false, true⟩], []⟩ ⟨4, some 0, none⟩).2 0 19 rfl
      rfl).1).2 (by decide),
    by decide⟩

/-- C9 (the code misses the stated range): for the pixel value 255 the value
`capture` produces is `128 / 127`, which is greater than 1. -/
theorem normalize_exceeds_one :
    (0 : ℚ) ≤ 255 ∧ (255 : ℚ) ≤ 255 ∧ normalize 255 = 128 / 127 ∧ 1 < normalize 255 := by
  refine ⟨by norm_num, le_refl _, ?_, ?_⟩ <;> norm_num [normalize]

/-- C10: `cropImage` asks for a window of size `[s, s, 3]` with
`s = min(height, width)` starting at `[(height - s) / 2, (width - s) / 2, 0]`;
both offsets are non-negative, the window ends inside the image on both axes,
and on each axis the margin before the window equals the margin after it. -/
theorem cropImage_centered (h w : Nat) :
    (cropImage h w).size = [((min h w : Nat) : ℚ), ((min h w : Nat) : ℚ), 3] ∧
    (cropImage h w).begin =
      [((h : ℚ) - ((min h w : Nat) : ℚ)) / 2, ((w : ℚ) - ((min h w : Nat) : ℚ)) / 2, 0] ∧
    0 ≤ ((h : ℚ) - ((min h w : Nat) : ℚ)) / 2 ∧
    0 ≤ ((w : ℚ) - ((min h w : Nat) : ℚ)) / 2 ∧
    ((h : ℚ) - ((min h w : Nat) : ℚ)) / 2 + ((min h w : Nat) : ℚ) ≤ (h : ℚ) ∧
    ((w : ℚ) - ((min h w : Nat) : ℚ)) / 2 + ((min h w : Nat) : ℚ) ≤ (w : ℚ) ∧
    ((h : ℚ) - ((min h w : Nat) : ℚ)) / 2 =
      (h : ℚ) - (((h : ℚ) - ((min h w : Nat) : ℚ)) / 2 + ((min h w : Nat) : ℚ)) ∧
    ((w : ℚ) - ((min h w : Nat) : ℚ)) / 2 =
      (w : ℚ) - (((w : ℚ) - ((min h w : Nat) : ℚ)) / 2 + ((min h w : Nat) : ℚ)) := by
  have hh : ((min h w : Nat) : ℚ) ≤ (h : ℚ) := by exact_mod_cast Nat.min_le_left h w
  have hw : ((min h w : Nat) : ℚ) ≤ (w : ℚ) := by exact_mod_cast Nat.min_le_right h w
  refine ⟨rfl, ?_, ?_, ?_, ?_, ?_, ?_, ?_⟩
  · simp only [cropImage]
    congr 1
    · ring
    · congr 1
      ring
  · linarith
  · linarith
  · linarith
  · linarith
  · ring
  · ring

end ControlBrowserByGesture
